import Mathlib

/-!
Verification of the Phishy multi-signal email analysis core against its
specification.  The Python sources under `backend/routes/` are shallowly
embedded: pure functions become Lean functions over `ℚ`/`ℤ`/`ℕ`, the
stateful prediction cache becomes explicit state passing over association
lists, and fallible vendor calls become `Option`-valued environments.
All definitions are executable.
-/

namespace Phishy

/-! ## Feature extraction and the ML classifier adapter
(`backend/routes/phishing_detector.py`)

`extract_advanced_features` produces a dictionary of lexical counts and
ratios; we embed that dictionary as the structure `Features`.  The field
`caps_frac` models the source's uppercase-character ratio field. -/

structure Features where
  url_count : ℕ
  suspicious_domains : ℕ
  ip_urls : ℕ
  urgency_score : ℕ
  social_engineering_score : ℕ
  suspicious_phrases : ℕ
  has_attachments : ℕ
  personal_info_request : ℕ
  grammar_score : ℚ
  caps_frac : ℚ
deriving DecidableEq, Repr

/-- Environment describing the fallible collaborators of the ML classifier
adapter: whether the XGBoost model file exists on disk, whether the ML
libraries import successfully, and the outcome of a prediction on the
given input (`none` models a runtime exception inside
`embedder.encode`/`classifier.predict`; `some (p, c)` models prediction
`p` with confidence `c` already scaled to 0–100 as in
`probabilities[prediction] * 100`). -/
structure MLEnv where
  modelFileExists : Bool
  mlLibsAvailable : Bool
  predictOutcome : Option (Bool × ℚ)
deriving DecidableEq, Repr

/-- The value stored in `model_cache["initialized"]`: `True` (models
loaded) or the string `"fallback"`. -/
inductive InitState where
  | mlLoaded
  | fallback
deriving DecidableEq, Repr

/-- Embeds `EnhancedPhishingDetector.initialize_models`: tries to load the
trained model; every failure path (missing file, `ImportError`, any other
exception) sets `model_cache["initialized"] = "fallback"` and returns
normally. -/
def init_models (env : MLEnv) : InitState :=
  if env.modelFileExists && env.mlLibsAvailable then .mlLoaded else .fallback

/-- Result dictionary of `analyze_with_ml` / `analyze_with_rules`. -/
structure MLAnalysis where
  is_phishing : Bool
  confidence : ℚ
  method : String
deriving DecidableEq, Repr

/-- Embeds `EnhancedPhishingDetector.analyze_with_rules`: the rule-based fallback
score, a weighted sum of indicator hits with
`is_phishing := risk_score >= 40` and
`confidence := min(risk_score * 1.5, 95)`. -/
def analyze_with_rules (f : Features) : MLAnalysis :=
  let r0 : ℚ := 0
  let r1 := if f.url_count > 3 then r0 + 20 else r0
  let r2 := if f.suspicious_domains > 0 then r1 + 30 else r1
  let r3 := if f.ip_urls > 0 then r2 + 25 else r2
  let r4 := if f.urgency_score > 2 then r3 + 25 else r3
  let r5 := if f.social_engineering_score > 1 then r4 + 30 else r4
  let r6 := if f.suspicious_phrases > 0 then r5 + 20 else r5
  let r7 := if f.personal_info_request > 0 then r6 + 35 else r6
  let r8 := if f.grammar_score > 1/2 then r7 + 15 else r7
  let r9 := if f.caps_frac > 3/10 then r8 + 10 else r8
  { is_phishing := decide (r9 ≥ 40), confidence := min (r9 * (3/2)) 95, method := "rule_based" }

/-- Embeds `EnhancedPhishingDetector.analyze_with_ml`: uses the trained model only
when `model_cache["initialized"] == True`; a runtime prediction failure is
caught and resolves to `analyze_with_rules`. -/
def analyze_with_ml (env : MLEnv) (f : Features) : MLAnalysis :=
  if init_models env ≠ .mlLoaded then analyze_with_rules f
  else
    match env.predictOutcome with
    | some (pred, conf) => { is_phishing := pred, confidence := conf, method := "ml_model" }
    | none => analyze_with_rules f

/-- Result dictionary of `ComprehensiveAnalysisEngine._run_ml_analysis`. -/
structure RunML where
  prediction : String
  confidence : ℚ
  method : String
  available : Bool
deriving DecidableEq, Repr

/-- Embeds `ComprehensiveAnalysisEngine._run_ml_analysis`
(`comprehensive_analysis.py`): initializes the detector, extracts
features (given here already extracted, since extraction is a pure
function of the content), runs `analyze_with_ml`, and normalizes the
outcome.  None of the modelled failure modes raises, so the success
branch with `available: True` is always taken. -/
def run_ml_analysis (env : MLEnv) (f : Features) : RunML :=
  let a := analyze_with_ml env f
  { prediction := if a.is_phishing then "Phishing" else "Safe"
    confidence := a.confidence / 100
    method := a.method
    available := true }

/-! ## File heuristic adapter (`backend/routes/file_analysis.py`) -/

/-- Whether `pat` occurs at the head of `l` (character-wise equality). -/
def matchesAt : List Char → List Char → Bool
  | [], _ => true
  | _ :: _, [] => false
  | p :: ps, c :: cs => (p == c) && matchesAt ps cs

/-- Whether `pat` occurs as a contiguous substring of `hay`; embeds the
Python `in` operator on strings. -/
def containsSub (pat : List Char) : List Char → Bool
  | [] => matchesAt pat []
  | c :: t => matchesAt pat (c :: t) || containsSub pat t

/-- Lower-cased character list of a string; embeds `filename.lower()`. -/
def lowerChars (s : String) : List Char :=
  s.data.map Char.toLower

def dangerous_extensions : List String :=
  [".exe", ".scr", ".bat", ".cmd", ".com", ".pif", ".vbs", ".js", ".jar"]

def suspicious_extensions : List String :=
  [".zip", ".rar", ".7z", ".pdf", ".doc", ".docx", ".xls", ".xlsx"]

def social_keywords : List String :=
  ["invoice", "receipt", "payment", "urgent", "security"]

/-- Result dictionary of `analyze_file_static`. -/
structure FileAnalysis where
  is_malicious : Bool
  risk_score : ℕ
  threat_types : List String
deriving DecidableEq, Repr

/-- Embeds `analyze_file_static` (`file_analysis.py`): extension classes are
matched by substring containment (`ext in filename_lower`), a
social-engineering keyword adds 20, `is_malicious` is decided on the
un-capped score and the reported score is capped at 100. -/
def analyze_file_static (filename : String) : FileAnalysis :=
  if filename = "" then { is_malicious := false, risk_score := 0, threat_types := [] }
  else
    let fl := lowerChars filename
    let base : ℕ × List String :=
      if dangerous_extensions.any (fun e => containsSub e.data fl) then
        (80, ["executable", "potentially_harmful"])
      else if suspicious_extensions.any (fun e => containsSub e.data fl) then
        (30, ["document", "needs_scanning"])
      else (0, [])
    let withKw : ℕ × List String :=
      if social_keywords.any (fun k => containsSub k.data fl) then
        (base.1 + 20, base.2 ++ ["social_engineering"])
      else base
    { is_malicious := decide (withKw.1 ≥ 50)
      risk_score := min withKw.1 100
      threat_types := withKw.2 }

/-! ## IP reputation adapter (`backend/routes/ip_intelligence.py`) -/

/-- Risk score computed by `analyze_ip_with_abuseipdb` from a successful
AbuseIPDB response: start from the abuse-confidence percentage, add 10
capped at 100 when more than 10 reports exist, then subtract 20 floored
at 0 when the IP is whitelisted. -/
def abuseipdb_risk (abuse_confidence total_reports : ℤ) (is_whitelisted : Bool) : ℤ :=
  let r1 := abuse_confidence
  let r2 := if total_reports > 10 then min (r1 + 10) 100 else r1
  let r3 := if is_whitelisted then max (r2 - 20) 0 else r2
  r3

/-- Modelled from the spec's wording of the same computation: the
abuse-confidence adjusted by +10 and −20 with a single final clamp of the
result to [0,100].  Used to compare the spec's description against the
source's `abuseipdb_risk`. -/
def spec_ip_risk (abuse_confidence total_reports : ℤ) (is_whitelisted : Bool) : ℤ :=
  max 0 (min 100 (abuse_confidence
    + (if total_reports > 10 then 10 else 0)
    - (if is_whitelisted then 20 else 0)))

/-! ## Aggregation (`_calculate_comprehensive_risk`) -/

/-- The slice of the `analysis_results` dictionary read by
`_calculate_comprehensive_risk`.  `urlscanMaliciousScore = none` models a
`urlscan` sub-dictionary without a `malicious_score` key (failed call);
`googleThreats` is the length of the `threats` list (0 when absent or
empty, which is falsy either way); `ipAnalysisRisk = none` models a
missing or non-dict `analysis_result`; `fileRiskScores` is the list of
`risk_score` values in `analysis_results` (an empty list is falsy). -/
structure AnalysisResults where
  mlAvailable : Bool
  mlConfidence : ℚ
  urlAvailable : Bool
  urlscanMaliciousScore : Option ℚ
  googleThreats : ℕ
  fileAvailable : Bool
  fileRiskScores : List ℚ
  ipAvailable : Bool
  ipAnalysisRisk : Option ℚ
  spamScore : ℚ
deriving DecidableEq, Repr

/-- The `ml_risk` local of `_calculate_comprehensive_risk`: 0 when the ML
signal is unavailable, otherwise the confidence (normalized to [0,1] when
given above 1) times 100. -/
def mlRisk (r : AnalysisResults) : ℚ :=
  if r.mlAvailable then
    (if r.mlConfidence > 1 then r.mlConfidence / 100 else r.mlConfidence) * 100
  else 0

/-- URL-analysis contribution to the weighted sum:
`malicious_score * 100 * 0.08` when the urlscan score is present and
truthy, plus `len(threats) * 20 * 0.07` when the Google threat list is
present and non-empty. -/
def urlContribution (r : AnalysisResults) : ℚ :=
  if r.urlAvailable then
    (match r.urlscanMaliciousScore with
     | some s => if s ≠ 0 then s * 100 * (8/100) else 0
     | none => 0)
    + (if r.googleThreats ≠ 0 then (r.googleThreats : ℚ) * 20 * (7/100) else 0)
  else 0

/-- File-analysis contribution: the average attachment risk times 0.08,
only when results are available and non-empty. -/
def fileContribution (r : AnalysisResults) : ℚ :=
  if r.fileAvailable ∧ r.fileRiskScores ≠ [] then
    (r.fileRiskScores.sum / (r.fileRiskScores.length : ℚ)) * (8/100)
  else 0

/-- IP-intelligence contribution: `analysis_result.get('risk_score', 0) * 0.05`
when the IP step is available and its `analysis_result` is a dictionary. -/
def ipContribution (r : AnalysisResults) : ℚ :=
  if r.ipAvailable then
    (match r.ipAnalysisRisk with
     | some x => x * (5/100)
     | none => 0)
  else 0

/-- Embeds `ComprehensiveAnalysisEngine._calculate_comprehensive_risk`: weighted
sum of the signal contributions, a dominance override raising the score
to `ml_risk * 0.95` when `ml_risk > 70`, then an upper clamp at 100. -/
def calculate_comprehensive_risk (r : AnalysisResults) : ℚ :=
  let ml := mlRisk r
  let s1 : ℚ := if r.mlAvailable then ml * (7/10) else 0
  let s2 := s1 + urlContribution r
  let s3 := s2 + fileContribution r
  let s4 := s3 + ipContribution r
  let s5 := s4 + r.spamScore * (2/100)
  let boosted := if ml > 70 then max s5 (ml * (95/100)) else s5
  min boosted 100

/-! ## The comprehensive-analysis orchestrator
(`ComprehensiveAnalysisEngine.analyze_email_comprehensive`)

The orchestrator first extracts entities (URLs via a regex for
`http(s)://` links, non-private IPv4 literals, attachment filename
guesses); those pure extractions are given here as the already-extracted
lists inside `EmailEntities`, together with the lexical feature vector
and the number of spam-indicator phrase matches that
`_analyze_spam_indicators` counts. -/

structure EmailEntities where
  features : Features
  urls : List String
  attachments : List String
  ips : List String
  spamIndicatorMatches : ℕ
deriving DecidableEq, Repr

/-- Outcomes of the external vendor services that a single orchestrator
run can touch.  `urlscanScore = some s` models `analyze_url_with_urlscan`
returning a dictionary carrying `malicious_score = s`; `none` models the
call raising (the wrapper then stores an error dictionary without a
`malicious_score` key).  `googleThreats = some n` models a successful
Safe Browsing batch check with `n` threat matches; `none` a failed one.
`abuseipdbRisk = some x` models `analyze_ip_with_abuseipdb` returning a
dictionary with `risk_score = x` (its own failure paths return 0);
`none` models the call raising, after which the wrapper stores an error
dictionary whose missing `risk_score` key reads as 0. -/
structure VendorEnv where
  urlscanScore : Option ℚ
  googleThreats : Option ℕ
  abuseipdbRisk : Option ℤ
deriving DecidableEq, Repr

/-- One external or local adapter invocation performed during fan-out. -/
inductive VendorCall where
  | urlscan
  | googleSafeBrowsing
  | virustotal
  | abuseipdb
  | fileStatic
deriving DecidableEq, Repr

/-- Slice of the `_run_url_analysis` result dictionary that later steps
read. -/
structure UrlStepResult where
  available : Bool
  urlsFound : ℕ
  urlscanScore : Option ℚ
  googleThreatCount : ℕ
deriving DecidableEq, Repr

/-- Embeds `ComprehensiveAnalysisEngine._run_url_analysis`: with no URLs in the
content it returns `{'available': True, 'urls_found': 0}` without
touching any vendor; otherwise it calls URLScan.io on the first URL,
Google Safe Browsing on all URLs and VirusTotal on the first URL, each
failure being stored as an error sub-dictionary. -/
def run_url_analysis (urls : List String) (venv : VendorEnv) :
    UrlStepResult × List VendorCall :=
  if urls.isEmpty then
    ({ available := true, urlsFound := 0, urlscanScore := none, googleThreatCount := 0 }, [])
  else
    ({ available := true
       urlsFound := urls.length
       urlscanScore := venv.urlscanScore
       googleThreatCount := match venv.googleThreats with | some n => n | none => 0 },
     [.urlscan, .googleSafeBrowsing, .virustotal])

/-- Slice of the `_run_file_analysis` result dictionary. -/
structure FileStepResult where
  available : Bool
  attachmentsFound : ℕ
  riskScores : List ℚ
deriving DecidableEq, Repr

/-- Embeds `ComprehensiveAnalysisEngine._run_file_analysis`: with no attachment
indicators it returns `{'available': True, 'attachments_found': 0}`
without invoking the file heuristic; otherwise it runs
`analyze_file_static` on the first three attachment filenames. -/
def run_file_analysis (attachments : List String) :
    FileStepResult × List VendorCall :=
  if attachments.isEmpty then
    ({ available := true, attachmentsFound := 0, riskScores := [] }, [])
  else
    let sel := attachments.take 3
    ({ available := true
       attachmentsFound := attachments.length
       riskScores := sel.map (fun fn => ((analyze_file_static fn).risk_score : ℚ)) },
     sel.map (fun _ => .fileStatic))

/-- Slice of the `_run_ip_analysis` result dictionary.  `analysisRisk`
is the `risk_score` read out of `analysis_result` with default 0; it is
`some _` exactly when an `analysis_result` dictionary is present, i.e.
whenever at least one public IP literal was found. -/
structure IpStepResult where
  available : Bool
  ipsFound : ℕ
  analysisRisk : Option ℚ
deriving DecidableEq, Repr

/-- Embeds `ComprehensiveAnalysisEngine._run_ip_analysis`: with no public IP
literal it returns `{'available': True, 'ips_found': 0}` without calling
AbuseIPDB; otherwise it looks up the first IP (an exception stores an
error dictionary whose missing `risk_score` reads as 0). -/
def run_ip_analysis (ips : List String) (venv : VendorEnv) :
    IpStepResult × List VendorCall :=
  if ips.isEmpty then
    ({ available := true, ipsFound := 0, analysisRisk := none }, [])
  else
    ({ available := true
       ipsFound := ips.length
       analysisRisk := some (match venv.abuseipdbRisk with | some x => (x : ℚ) | none => 0) },
     [.abuseipdb])

/-- Embeds `ComprehensiveAnalysisEngine._analyze_spam_indicators`, given the
number of spam-indicator phrases found in the content: each match adds
15, capped at 100. -/
def analyze_spam_score (matchCount : ℕ) : ℚ :=
  min ((matchCount : ℚ) * 15) 100

/-- The verdict dictionary assembled at the end of a successful
orchestrator run (the fields the route handler reads back). -/
structure Verdict where
  overallRisk : ℚ
  isPhishing : Bool
  confidenceScore : ℚ
  classification : String
  servicesRun : List String
  spamScore : ℚ
deriving DecidableEq, Repr

/-- What `analyze_email_comprehensive` hands back: either the full
verdict dictionary, or — when an exception escaped the `try` block — the
bare `_run_ml_analysis` dictionary, which carries none of the
`overallRisk` / `is_phishing` / `services_run` keys. -/
inductive EngineResult where
  | verdict (v : Verdict)
  | mlFallback (m : RunML)
deriving DecidableEq, Repr

/-- Scheduling events of one orchestrator run: `callStart s` marks the
point where the awaited coroutine for step `s` begins executing,
`callEnd s` the point where its `await` completes, and `aggregate` the
call to `_calculate_comprehensive_risk`.  Because every step in the
source is written `result = await self._run_...(...)` — one await after
another, with no `asyncio.gather`/`create_task` — each step's completion
event precedes the next step's start event in program order. -/
inductive Event where
  | callStart (s : String)
  | callEnd (s : String)
  | aggregate
deriving DecidableEq, Repr

/-- A run of the orchestrator together with the adapter invocations it
performed and its event trace (call start, call completion, final
aggregation), in the order the `await` expressions execute. -/
structure EngineOutput where
  result : EngineResult
  vendorCalls : List VendorCall
  trace : List Event
deriving DecidableEq, Repr

/-- Embeds `ComprehensiveAnalysisEngine.analyze_email_comprehensive`
(`comprehensive_analysis.py`, the engine method).  `fault = true` models
an unrecoverable exception escaping some internal step of the `try`
block, in which case the `except` handler returns the bare
`_run_ml_analysis` dictionary.  On the normal path the six steps run
one after another, each `await`ed to completion; every step wrapper
returns a non-empty (hence truthy) dictionary, so each step's name is
appended to `services_run` unconditionally.  The overall risk is
computed at step 7, *before* step 8 inserts `spam_score` into
`analysis_results`, so the spam term of `_calculate_comprehensive_risk`
reads the default 0 during aggregation. -/
def analyze_email_comprehensive (menv : MLEnv) (venv : VendorEnv)
    (e : EmailEntities) (fault : Bool) : EngineOutput :=
  if fault then
    { result := .mlFallback (run_ml_analysis menv e.features)
      vendorCalls := []
      trace := [] }
  else
    let ml := run_ml_analysis menv e.features
    let urlStep := run_url_analysis e.urls venv
    let fileStep := run_file_analysis e.attachments
    let ipStep := run_ip_analysis e.ips venv
    let results : AnalysisResults :=
      { mlAvailable := ml.available
        mlConfidence := ml.confidence
        urlAvailable := urlStep.1.available
        urlscanMaliciousScore := urlStep.1.urlscanScore
        googleThreats := urlStep.1.googleThreatCount
        fileAvailable := fileStep.1.available
        fileRiskScores := fileStep.1.riskScores
        ipAvailable := ipStep.1.available
        ipAnalysisRisk := ipStep.1.analysisRisk
        spamScore := 0 }
    let overall := calculate_comprehensive_risk results
    let spam := analyze_spam_score e.spamIndicatorMatches
    { result := .verdict
        { overallRisk := overall
          isPhishing := decide (overall ≥ 50)
          confidenceScore := overall / 100
          classification := ml.prediction
          servicesRun :=
            ["ml_classification", "url_analysis", "file_analysis",
             "ip_intelligence", "header_analysis", "sender_reputation",
             "email_analysis"]
          spamScore := spam }
      vendorCalls := urlStep.2 ++ fileStep.2 ++ ipStep.2
      trace :=
        [.callStart "ml_classification", .callEnd "ml_classification",
         .callStart "url_analysis", .callEnd "url_analysis",
         .callStart "file_analysis", .callEnd "file_analysis",
         .callStart "ip_intelligence", .callEnd "ip_intelligence",
         .callStart "header_analysis", .callEnd "header_analysis",
         .callStart "sender_reputation", .callEnd "sender_reputation",
         .aggregate] }

/-- The `services_run` list of an engine output (empty on the fallback
shape, which carries no such key). -/
def servicesOf (o : EngineOutput) : List String :=
  match o.result with
  | .verdict v => v.servicesRun
  | .mlFallback _ => []

/-- The response body the HTTP route would serialize. -/
structure RouteResponse where
  overall_risk : ℚ
  is_phishing : Bool
  confidence_score : ℚ
  classification : String
  services_run : List String
deriving DecidableEq, Repr

/-- The `POST /analyze-comprehensive` route handler: builds a
`ComprehensiveAnalysisResponse` from the engine result by subscripting
`result['overallRisk']`, `result['is_phishing']`, …  When the engine
returned its fallback dictionary those keys are absent, the `KeyError`
is caught by the handler's own `except`, and the caller receives an HTTP
500 error instead of a verdict. -/
def comprehensive_route (menv : MLEnv) (venv : VendorEnv)
    (e : EmailEntities) (fault : Bool) : Except String RouteResponse :=
  match (analyze_email_comprehensive menv venv e fault).result with
  | .verdict v =>
      .ok { overall_risk := v.overallRisk
            is_phishing := v.isPhishing
            confidence_score := v.confidenceScore
            classification := v.classification
            services_run := v.servicesRun }
  | .mlFallback _ => .error "Analysis failed: KeyError overallRisk"

/-! ## Trace predicates for the fan-out scheduling claims -/

/-- Whether an event is the launch of an adapter call. -/
def isStart : Event → Bool
  | .callStart _ => true
  | _ => false

/-- Whether an event is the completion of an adapter call. -/
def isEnd : Event → Bool
  | .callEnd _ => true
  | _ => false

/-- Helper scan: once a completion event has been seen, no further launch
event may occur. -/
def noStartAfterEnd (seenEnd : Bool) : List Event → Bool
  | [] => true
  | e :: rest =>
      if isStart e && seenEnd then false
      else noStartAfterEnd (seenEnd || isEnd e) rest

/-- A trace is a concurrent fan-out when every adapter-call launch
precedes every adapter-call completion: all calls are in flight before
the first one is joined. -/
def startsPrecedeJoins (tr : List Event) : Bool :=
  noStartAfterEnd false tr

/-- A trace is strictly sequential with a terminal aggregation when it
consists of matching launch/completion pairs, one call finishing before
the next is launched, followed by the single `aggregate` event. -/
def seqPattern : List Event → Bool
  | [] => false
  | [e] => match e with | .aggregate => true | _ => false
  | .callStart a :: .callEnd b :: rest => (a == b) && seqPattern rest
  | _ => false

/-! ## The prediction cache of the `/analyze-email` endpoint
(`backend/routes/phishing_detector.py`, `analyze_email`)

The module-level `model_cache` holds two dictionaries updated in
lockstep: `prediction_cache[hash] = response` and
`cache_expiry[hash] = insertion_time`.  We merge the pair into one
insertion-ordered association list of `CEntry` records (Python
dictionaries preserve insertion order; overwriting a key keeps its
position, which the `map` branch below mirrors). -/

structure CEntry (K V : Type) where
  key : K
  time : ℚ
  val : V
deriving DecidableEq, Repr

/-- One comparison step of Python's `min` over the expiry dictionary:
replace the current minimum only on a strictly smaller time, so the
earliest-iterated entry wins ties. -/
def minStep {K V : Type} (acc : Option (CEntry K V)) (x : CEntry K V) :
    Option (CEntry K V) :=
  match acc with
  | none => some x
  | some m => if x.time < m.time then some x else some m

/-- First entry with minimal `time`, the value of
`min(model_cache["cache_expiry"], key=model_cache["cache_expiry"].get)`:
Python's `min` keeps the earliest-iterated element among ties, and
iteration order is insertion order. -/
def argminTime {K V : Type} (l : List (CEntry K V)) : Option (CEntry K V) :=
  l.foldl minStep none

/-- The cache-write block of `analyze_email` (lines 358–367): store the
response under the key with the current time, then, if the store now
holds more than 100 entries, delete the entry whose recorded time is
smallest. -/
def putCache {K V : Type} [DecidableEq K]
    (st : List (CEntry K V)) (k : K) (t : ℚ) (v : V) : List (CEntry K V) :=
  let st1 :=
    if st.any (fun e => decide (e.key = k)) then
      st.map (fun e => if e.key = k then ⟨k, t, v⟩ else e)
    else st ++ [⟨k, t, v⟩]
  if st1.length > 100 then
    match argminTime st1 with
    | some m => st1.eraseP (fun e => decide (e.key = m.key))
    | none => st1
  else st1

/-- The fields of `PhishingAnalysisResponse` relevant to the cache
behaviour (the cached object is returned as stored, so identity of this
record models byte-identity of the cached HTTP response). -/
structure DetectorResponse where
  is_phishing : Bool
  confidence_score : ℚ
  risk_level : String
  method : String
deriving DecidableEq, Repr

/-- Embeds `EnhancedPhishingDetector.get_risk_level`. -/
def get_risk_level (confidence : ℚ) (isPhish : Bool) : String :=
  if !isPhish then "LOW"
  else if confidence ≥ 90 then "CRITICAL"
  else if confidence ≥ 75 then "HIGH"
  else if confidence ≥ 50 then "MEDIUM"
  else "LOW"

/-- The response `analyze_email` computes when it does not hit the
cache: feature extraction followed by `analyze_with_ml`. -/
def build_response (menv : MLEnv) (f : Features) : DetectorResponse :=
  let a := analyze_with_ml menv f
  { is_phishing := a.is_phishing
    confidence_score := a.confidence
    risk_level := get_risk_level a.confidence a.is_phishing
    method := a.method }

/-- The `/analyze-email` route handler `analyze_email`
(`phishing_detector.py`), with `cache_results = True` (the default).
The MD5 content hash is modelled by the content string itself (MD5 is
injective on the requests considered); `extract` is the pure
`extract_advanced_features`.  Returns the response, the new cache state,
and whether the analysis pipeline actually executed (`false` on a cache
hit).  A stored entry older than 3600 seconds fails the TTL test and is
recomputed, exactly as in the source. -/
def analyze_email (extract : String → Features) (menv : MLEnv)
    (st : List (CEntry String DetectorResponse)) (content : String) (now : ℚ) :
    DetectorResponse × List (CEntry String DetectorResponse) × Bool :=
  match st.find? (fun e => decide (e.key = content)) with
  | some e =>
      if now - e.time < 3600 then (e.val, st, false)
      else
        let resp := build_response menv (extract content)
        (resp, putCache st content now resp, true)
  | none =>
      let resp := build_response menv (extract content)
      (resp, putCache st content now resp, true)

/-! ## Theorems -/

/-- C1: for every analysis where the ML signal is available with
`ML.risk > 70` and every other signal (sandbox, threat-list, file, IP,
lexical spam) contributes 0, the aggregated final score equals
`ML.risk × 0.95` exactly: the dominance override sets that floor on the
weighted sum before the upper clamp, and the clamp cannot cut it because
`0.95 × ML.risk ≤ 95`. -/
theorem dominance_override_exact (r : AnalysisResults)
    (hav : r.mlAvailable = true)
    (h70 : 70 < mlRisk r) (h100 : mlRisk r ≤ 100)
    (hurl : urlContribution r = 0) (hfile : fileContribution r = 0)
    (hip : ipContribution r = 0) (hspam : r.spamScore = 0) :
    calculate_comprehensive_risk r = mlRisk r * (95/100) := by
  have hml0 : (0:ℚ) ≤ mlRisk r := le_of_lt (lt_trans (by norm_num) h70)
  simp only [calculate_comprehensive_risk, hav, hurl, hfile, hip, hspam, if_true]
  rw [if_pos h70, max_eq_right (by nlinarith), min_eq_left (by nlinarith)]

/-- Concrete instance for `dominance_override_exact`: ML available at
confidence 0.8 (risk 80), all other signals zero, final score 76. -/
def rDominance : AnalysisResults :=
  { mlAvailable := true, mlConfidence := 4/5, urlAvailable := true
    urlscanMaliciousScore := none, googleThreats := 0
    fileAvailable := true, fileRiskScores := []
    ipAvailable := true, ipAnalysisRisk := none, spamScore := 0 }

/-- Witness for C1 at `rDominance`. -/
theorem dominance_override_exact_witness :
    (rDominance.mlAvailable = true ∧ 70 < mlRisk rDominance ∧ mlRisk rDominance ≤ 100 ∧
      urlContribution rDominance = 0 ∧ fileContribution rDominance = 0 ∧
      ipContribution rDominance = 0 ∧ rDominance.spamScore = 0) ∧
    calculate_comprehensive_risk rDominance = mlRisk rDominance * (95/100) :=
  ⟨⟨rfl, by norm_num [mlRisk, rDominance], by norm_num [mlRisk, rDominance],
    by norm_num [urlContribution, rDominance], by norm_num [fileContribution, rDominance],
    by norm_num [ipContribution, rDominance], rfl⟩,
   dominance_override_exact rDominance rfl (by norm_num [mlRisk, rDominance])
     (by norm_num [mlRisk, rDominance]) (by norm_num [urlContribution, rDominance])
     (by norm_num [fileContribution, rDominance]) (by norm_num [ipContribution, rDominance])
     rfl⟩

/-- C2: any failure of the underlying trained model — missing model file,
missing ML libraries, or a runtime prediction error — resolves to the
rule-based fallback score with method `"rule_based"` and the classifier
signal marked available, never to a result with `available: false`. -/
theorem ml_failure_resolves_to_rules (env : MLEnv) (f : Features)
    (hfail : env.modelFileExists = false ∨ env.mlLibsAvailable = false ∨
      env.predictOutcome = none) :
    (run_ml_analysis env f).available = true ∧
    (run_ml_analysis env f).method = "rule_based" ∧
    (run_ml_analysis env f).confidence = (analyze_with_rules f).confidence / 100 := by
  unfold run_ml_analysis analyze_with_ml init_models
  rcases hfail with h | h | h
  · simp [h, analyze_with_rules]
  · simp [h, analyze_with_rules]
  · by_cases hload : env.modelFileExists && env.mlLibsAvailable
    · simp [hload, h, analyze_with_rules]
    · simp [hload, analyze_with_rules]

/-- A concrete feature vector (all indicators zero). -/
def fZero : Features := ⟨0, 0, 0, 0, 0, 0, 0, 0, 0, 0⟩

/-- Environment with no trained model on disk. -/
def envNoModel : MLEnv :=
  { modelFileExists := false, mlLibsAvailable := false, predictOutcome := none }

/-- Witness for C2: the missing-model environment on the zero feature
vector. -/
theorem ml_failure_resolves_to_rules_witness :
    (envNoModel.modelFileExists = false ∨ envNoModel.mlLibsAvailable = false ∨
      envNoModel.predictOutcome = none) ∧
    ((run_ml_analysis envNoModel fZero).available = true ∧
     (run_ml_analysis envNoModel fZero).method = "rule_based" ∧
     (run_ml_analysis envNoModel fZero).confidence =
       (analyze_with_rules fZero).confidence / 100) :=
  ⟨Or.inl rfl, ml_failure_resolves_to_rules envNoModel fZero (Or.inl rfl)⟩

/-- C9, counterexample: at abuse-confidence 95, 15 reports and a
whitelisted IP, the source computes `min(95+10,100) − 20 = 80`, while the
claim's single final clamp yields `clamp(95+10−20) = 85`. -/
theorem ip_risk_counterexample :
    abuseipdb_risk 95 15 true = 80 ∧ spec_ip_risk 95 15 true = 85 ∧
    abuseipdb_risk 95 15 true ≠ spec_ip_risk 95 15 true := by decide

/-- C9, amended: the adjustments are applied sequentially — the +10 bonus
is capped at 100 before the −20 whitelist penalty is applied, floored at
0.  The result always lies in [0,100] and agrees with the claim's
single-final-clamp formula except exactly when `a > 90`, `r > 10` and the
IP is whitelisted, where the source yields exactly 80. -/
theorem ip_risk_amended (a r : ℤ) (w : Bool) (h0 : 0 ≤ a) (h1 : a ≤ 100) :
    (0 ≤ abuseipdb_risk a r w ∧ abuseipdb_risk a r w ≤ 100) ∧
    (¬(90 < a ∧ 10 < r ∧ w = true) → abuseipdb_risk a r w = spec_ip_risk a r w) ∧
    ((90 < a ∧ 10 < r ∧ w = true) → abuseipdb_risk a r w = 80) := by
  unfold abuseipdb_risk spec_ip_risk
  rcases w <;> by_cases hr : 10 < r <;> simp [hr] <;> omega

/-- Witness for the amended C9 at the divergence point (95, 15,
whitelisted). -/
theorem ip_risk_amended_witness :
    ((0:ℤ) ≤ 95 ∧ (95:ℤ) ≤ 100) ∧
    ((0 ≤ abuseipdb_risk 95 15 true ∧ abuseipdb_risk 95 15 true ≤ 100) ∧
     (¬(90 < (95:ℤ) ∧ 10 < (15:ℤ) ∧ true = true) →
        abuseipdb_risk 95 15 true = spec_ip_risk 95 15 true) ∧
     ((90 < (95:ℤ) ∧ 10 < (15:ℤ) ∧ true = true) → abuseipdb_risk 95 15 true = 80)) :=
  ⟨⟨by decide, by decide⟩, ip_risk_amended 95 15 true (by decide) (by decide)⟩

/-- C10: whenever the lowercased filename contains a dangerous-extension
string anywhere (substring containment, not suffix matching), the static
file heuristic deterministically reports `is_malicious` with a risk score
of at least 80, capped at 100 after the social-engineering keyword
bonus. -/
theorem dangerous_substring_scores_high (filename : String)
    (hdang : dangerous_extensions.any
      (fun e => containsSub e.data (lowerChars filename)) = true) :
    (analyze_file_static filename).is_malicious = true ∧
    80 ≤ (analyze_file_static filename).risk_score ∧
    (analyze_file_static filename).risk_score ≤ 100 := by
  by_cases hfe : filename = ""
  · exfalso
    subst hfe
    revert hdang
    decide
  · unfold analyze_file_static
    rw [if_neg hfe]
    simp only [hdang, if_true]
    by_cases hkw : social_keywords.any (fun k => containsSub k.data (lowerChars filename)) = true
    · simp [hkw]
    · simp only [Bool.not_eq_true] at hkw
      simp [hkw]

/-- Witness for C10: `"data.json"` is not a JavaScript file, yet contains
`".js"` as a substring. -/
theorem dangerous_substring_scores_high_witness :
    dangerous_extensions.any
      (fun e => containsSub e.data (lowerChars "data.json")) = true ∧
    ((analyze_file_static "data.json").is_malicious = true ∧
     80 ≤ (analyze_file_static "data.json").risk_score ∧
     (analyze_file_static "data.json").risk_score ≤ 100) :=
  ⟨by decide, dangerous_substring_scores_high "data.json" (by decide)⟩

/-- C8: for every combination of available/unavailable signal results
whose payloads lie in their documented 0-to-100 domains, the aggregated
final score satisfies `0 ≤ final_score ≤ 100`: every contribution is
non-negative and the final `min(·, 100)` caps the sum. -/
theorem final_score_bounded (r : AnalysisResults)
    (hml : 0 ≤ r.mlConfidence)
    (hurl : ∀ s, r.urlscanMaliciousScore = some s → 0 ≤ s)
    (hfile : ∀ x ∈ r.fileRiskScores, 0 ≤ x)
    (hip : ∀ x, r.ipAnalysisRisk = some x → 0 ≤ x)
    (hspam : 0 ≤ r.spamScore) :
    0 ≤ calculate_comprehensive_risk r ∧ calculate_comprehensive_risk r ≤ 100 := by
  have hmlrisk : 0 ≤ mlRisk r := by
    unfold mlRisk
    split
    · split
      · have h100 : (0:ℚ) ≤ r.mlConfidence / 100 := by positivity
        nlinarith
      · nlinarith
    · exact le_refl 0
  have hurlc : 0 ≤ urlContribution r := by
    unfold urlContribution
    split
    · apply add_nonneg
      · cases hu : r.urlscanMaliciousScore with
        | none => exact le_refl 0
        | some s =>
            have hs := hurl s hu
            show 0 ≤ (if s ≠ 0 then s * 100 * (8/100) else 0)
            split
            · nlinarith
            · exact le_refl 0
      · split
        · positivity
        · exact le_refl 0
    · exact le_refl 0
  have hfilec : 0 ≤ fileContribution r := by
    unfold fileContribution
    split
    · have hsum : 0 ≤ r.fileRiskScores.sum := List.sum_nonneg hfile
      have hlen : (0:ℚ) ≤ (r.fileRiskScores.length : ℚ) := by positivity
      have : 0 ≤ r.fileRiskScores.sum / (r.fileRiskScores.length : ℚ) :=
        div_nonneg hsum hlen
      nlinarith
    · exact le_refl 0
  have hipc : 0 ≤ ipContribution r := by
    unfold ipContribution
    split
    · cases hi : r.ipAnalysisRisk with
      | none => exact le_refl 0
      | some x =>
          have hx := hip x hi
          nlinarith
    · exact le_refl 0
  constructor
  · unfold calculate_comprehensive_risk
    apply le_min _ (by norm_num)
    split
    · exact le_trans (by split <;> nlinarith) (le_max_left _ _)
    · split <;> nlinarith
  · exact min_le_right _ _

/-- Concrete instance for `final_score_bounded`: every signal present
with mid-range payloads. -/
def rBounded : AnalysisResults :=
  { mlAvailable := true, mlConfidence := 1/2, urlAvailable := true
    urlscanMaliciousScore := some 30, googleThreats := 2
    fileAvailable := true, fileRiskScores := [50, 80]
    ipAvailable := true, ipAnalysisRisk := some 10, spamScore := 15 }

/-- Witness for C8 at `rBounded`. -/
theorem final_score_bounded_witness :
    (0 ≤ rBounded.mlConfidence ∧
      (∀ s, rBounded.urlscanMaliciousScore = some s → 0 ≤ s) ∧
      (∀ x ∈ rBounded.fileRiskScores, 0 ≤ x) ∧
      (∀ x, rBounded.ipAnalysisRisk = some x → 0 ≤ x) ∧
      0 ≤ rBounded.spamScore) ∧
    (0 ≤ calculate_comprehensive_risk rBounded ∧
      calculate_comprehensive_risk rBounded ≤ 100) :=
  ⟨⟨by norm_num [rBounded],
    fun s h => by
      rw [show rBounded.urlscanMaliciousScore = some 30 from rfl] at h
      cases h
      norm_num,
    by
      intro x hx
      rw [show rBounded.fileRiskScores = [50, 80] from rfl] at hx
      simp only [List.mem_cons, List.mem_singleton, List.not_mem_nil, or_false] at hx
      rcases hx with rfl | rfl <;> norm_num,
    fun x h => by
      rw [show rBounded.ipAnalysisRisk = some 10 from rfl] at h
      cases h
      norm_num,
    by norm_num [rBounded]⟩,
   final_score_bounded rBounded (by norm_num [rBounded])
     (fun s h => by
       rw [show rBounded.urlscanMaliciousScore = some 30 from rfl] at h
       cases h
       norm_num)
     (by
       intro x hx
       rw [show rBounded.fileRiskScores = [50, 80] from rfl] at hx
       simp only [List.mem_cons, List.mem_singleton, List.not_mem_nil, or_false] at hx
       rcases hx with rfl | rfl <;> norm_num)
     (fun x h => by
       rw [show rBounded.ipAnalysisRisk = some 10 from rfl] at h
       cases h
       norm_num)
     (by norm_num [rBounded])⟩

/-- Email entities of a benign message: no URLs, no public IP literals,
no attachment indicators. -/
def entEmpty : EmailEntities :=
  { features := fZero, urls := [], attachments := [], ips := []
    spamIndicatorMatches := 0 }

/-- Vendor environment in which every external call fails. -/
def venvDead : VendorEnv :=
  { urlscanScore := none, googleThreats := none, abuseipdbRisk := none }

/-- C3 (code bug): when an internal step of the `try` block raises an
unrecoverable error, the engine's `except` handler returns the bare
`_run_ml_analysis` dictionary, which carries no `overallRisk`,
`is_phishing` or `services_run` key; the route handler's subscript
`result['overallRisk']` therefore raises `KeyError`, and the caller
receives an HTTP 500 error instead of the promised partial verdict. -/
theorem fault_path_fails_request :
    (analyze_email_comprehensive envNoModel venvDead entEmpty true).result
      = .mlFallback (run_ml_analysis envNoModel entEmpty.features) ∧
    comprehensive_route envNoModel venvDead entEmpty true
      = .error "Analysis failed: KeyError overallRisk" :=
  ⟨rfl, rfl⟩

/-- C4, counterexample: on a request with no URLs, IPs or attachments the
`services_run` list is not `["ml_classification", "email_analysis"]` —
every step wrapper returns a truthy no-entity dictionary and is recorded
as having run. -/
theorem services_run_counterexample :
    servicesOf (analyze_email_comprehensive envNoModel venvDead entEmpty false)
      ≠ ["ml_classification", "email_analysis"] := by
  intro h
  exact absurd h (by decide)

/-- C4, amended: with no URLs, public IPs or attachment indicators, the
URL Sandbox, Threat-List, VirusTotal, File Heuristic and IP Reputation
adapters are indeed never invoked, but `services_run` nonetheless lists
every service wrapper, because each wrapper returns a non-empty (truthy)
"nothing found" dictionary. -/
theorem no_entities_no_vendor_calls (menv : MLEnv) (venv : VendorEnv)
    (ents : EmailEntities)
    (hu : ents.urls = []) (ha : ents.attachments = []) (hi : ents.ips = []) :
    (analyze_email_comprehensive menv venv ents false).vendorCalls = [] ∧
    servicesOf (analyze_email_comprehensive menv venv ents false)
      = ["ml_classification", "url_analysis", "file_analysis", "ip_intelligence",
         "header_analysis", "sender_reputation", "email_analysis"] := by
  unfold analyze_email_comprehensive servicesOf run_url_analysis
    run_file_analysis run_ip_analysis
  simp [hu, ha, hi]

/-- Witness for the amended C4 at the no-entity request. -/
theorem no_entities_no_vendor_calls_witness :
    (entEmpty.urls = [] ∧ entEmpty.attachments = [] ∧ entEmpty.ips = []) ∧
    ((analyze_email_comprehensive envNoModel venvDead entEmpty false).vendorCalls = [] ∧
     servicesOf (analyze_email_comprehensive envNoModel venvDead entEmpty false)
       = ["ml_classification", "url_analysis", "file_analysis", "ip_intelligence",
          "header_analysis", "sender_reputation", "email_analysis"]) :=
  ⟨⟨rfl, rfl, rfl⟩,
   no_entities_no_vendor_calls envNoModel venvDead entEmpty rfl rfl rfl⟩

/-- Email entities making every adapter applicable. -/
def entFull : EmailEntities :=
  { features := fZero
    urls := ["http://secure-update.example/login"]
    attachments := ["invoice.exe"]
    ips := ["8.8.8.8"]
    spamIndicatorMatches := 2 }

/-- Vendor environment in which every external call succeeds. -/
def venvLive : VendorEnv :=
  { urlscanScore := some 20, googleThreats := some 0, abuseipdbRisk := some 10 }

/-- C5, counterexample: on a request where every adapter is applicable,
the orchestrator's event trace completes the ML call before launching the
URL call, so the launches do not all precede the joins — the fan-out is
not concurrent. -/
theorem fanout_not_concurrent :
    startsPrecedeJoins
      (analyze_email_comprehensive envNoModel venvLive entFull false).trace = false :=
  rfl

/-- C5, amended: the adapter calls are executed strictly sequentially —
each awaited to completion before the next is launched — and the
aggregation event occurs only after every call has completed, so the
orchestrator still never short-circuits before aggregating. -/
theorem fanout_sequential_full_barrier (menv : MLEnv) (venv : VendorEnv)
    (ents : EmailEntities) :
    seqPattern (analyze_email_comprehensive menv venv ents false).trace = true :=
  rfl

/-- C6, counterexample: the comprehensive engine consults no cache (its
state consists only of the request inputs), so issuing the identical
request twice performs the vendor fan-out twice — ten adapter
invocations across the two calls instead of the claimed five. -/
theorem repeat_request_repeats_fanout :
    (analyze_email_comprehensive envNoModel venvLive entFull false).vendorCalls.length = 5 ∧
    (analyze_email_comprehensive envNoModel venvLive entFull false).vendorCalls.length
      + (analyze_email_comprehensive envNoModel venvLive entFull false).vendorCalls.length
      = 10 :=
  ⟨rfl, rfl⟩

/-- C6, amended: the caching behaviour the claim describes lives in the
`/analyze-email` endpoint, not in the comprehensive orchestrator.  There,
an identical request repeated within the 3600-second TTL runs the
analysis pipeline exactly once across the two calls: the second call is
served from the prediction cache with a response identical to the first
and leaves the cache unchanged, while a repeat after the TTL treats the
stored entry as absent and recomputes. -/
theorem cache_serves_repeat_within_ttl (extract : String → Features) (menv : MLEnv)
    (content : String) (t0 t1 t2 : ℚ)
    (h1 : t1 - t0 < 3600) (h2 : 3600 ≤ t2 - t0) :
    ((analyze_email extract menv [] content t0).2.2 = true) ∧
    ((analyze_email extract menv (analyze_email extract menv [] content t0).2.1 content t1).1
       = (analyze_email extract menv [] content t0).1) ∧
    ((analyze_email extract menv (analyze_email extract menv [] content t0).2.1 content t1).2.2
       = false) ∧
    ((analyze_email extract menv (analyze_email extract menv [] content t0).2.1 content t1).2.1
       = (analyze_email extract menv [] content t0).2.1) ∧
    ((analyze_email extract menv (analyze_email extract menv [] content t0).2.1 content t2).2.2
       = true) := by
  have hstep1 : analyze_email extract menv [] content t0
      = (build_response menv (extract content),
         [⟨content, t0, build_response menv (extract content)⟩], true) := by
    unfold analyze_email putCache
    simp
  rw [hstep1]
  have hfind :
      List.find? (fun e => decide (e.key = content))
        [(⟨content, t0, build_response menv (extract content)⟩ :
            CEntry String DetectorResponse)]
      = some ⟨content, t0, build_response menv (extract content)⟩ := by
    simp [List.find?]
  refine ⟨rfl, ?_, ?_, ?_, ?_⟩ <;>
    · unfold analyze_email
      rw [hfind]
      simp [h1, not_lt.mpr h2]

/-- Witness for the amended C6: content `"hello"`, first call at time 0,
repeat at time 10 (inside the TTL), repeat at time 5000 (past it). -/
theorem cache_serves_repeat_within_ttl_witness :
    ((10:ℚ) - 0 < 3600 ∧ (3600:ℚ) ≤ 5000 - 0) ∧
    (((analyze_email (fun _ => fZero) envNoModel [] "hello" 0).2.2 = true) ∧
     ((analyze_email (fun _ => fZero) envNoModel
          (analyze_email (fun _ => fZero) envNoModel [] "hello" 0).2.1 "hello" 10).1
        = (analyze_email (fun _ => fZero) envNoModel [] "hello" 0).1) ∧
     ((analyze_email (fun _ => fZero) envNoModel
          (analyze_email (fun _ => fZero) envNoModel [] "hello" 0).2.1 "hello" 10).2.2
        = false) ∧
     ((analyze_email (fun _ => fZero) envNoModel
          (analyze_email (fun _ => fZero) envNoModel [] "hello" 0).2.1 "hello" 10).2.1
        = (analyze_email (fun _ => fZero) envNoModel [] "hello" 0).2.1) ∧
     ((analyze_email (fun _ => fZero) envNoModel
          (analyze_email (fun _ => fZero) envNoModel [] "hello" 0).2.1 "hello" 5000).2.2
        = true)) :=
  ⟨⟨by norm_num, by norm_num⟩,
   cache_serves_repeat_within_ttl (fun _ => fZero) envNoModel "hello" 0 10 5000
     (by norm_num) (by norm_num)⟩

/-- Folding the `min`-step over entries none of which strictly beats `m`
keeps `m`. -/
theorem foldl_minStep_keep {K V : Type} (l : List (CEntry K V)) (m : CEntry K V)
    (h : ∀ x ∈ l, m.time ≤ x.time) :
    l.foldl minStep (some m) = some m := by
  induction l with
  | nil => rfl
  | cons a t ih =>
      have ha : ¬ a.time < m.time := not_lt.mpr (h a (List.mem_cons_self a t))
      simp only [List.foldl_cons, minStep, ha, if_false]
      exact ih (fun x hx => h x (List.mem_cons_of_mem a hx))

/-- When the head of the list already has the minimal time, the Python
`min` over the expiry dictionary returns the head. -/
theorem argminTime_cons_of_min {K V : Type} (e : CEntry K V) (l : List (CEntry K V))
    (h : ∀ x ∈ l, e.time ≤ x.time) :
    argminTime (e :: l) = some e := by
  unfold argminTime
  simp only [List.foldl_cons]
  show l.foldl minStep (some e) = some e
  exact foldl_minStep_keep l e h

/-- On a cache holding exactly 100 entries in insertion order (times
non-decreasing), writing a fresh key with a timestamp at least every
stored time evicts exactly the head — the oldest-inserted entry — and
appends the new entry. -/
theorem putCache_full_fresh {K V : Type} [DecidableEq K]
    (st : List (CEntry K V)) (k : K) (t : ℚ) (v : V)
    (hsorted : st.Pairwise (fun a b => a.time ≤ b.time))
    (hle : ∀ e ∈ st, e.time ≤ t)
    (h100 : st.length = 100)
    (hfresh : ∀ e ∈ st, e.key ≠ k) :
    putCache st k t v = st.tail ++ [⟨k, t, v⟩] := by
  obtain ⟨hd, tl, rfl⟩ : ∃ hd tl, st = hd :: tl := by
    cases st with
    | nil => simp at h100
    | cons a b => exact ⟨a, b, rfl⟩
  have hany : (hd :: tl).any (fun e => decide (e.key = k)) = false := by
    rw [List.any_eq_false]
    intro e he
    simpa using hfresh e he
  have hmin : argminTime ((hd :: tl) ++ [⟨k, t, v⟩]) = some hd := by
    rw [List.cons_append]
    apply argminTime_cons_of_min
    intro x hx
    rcases List.mem_append.mp hx with hx | hx
    · exact (List.pairwise_cons.mp hsorted).1 x hx
    · rw [List.mem_singleton] at hx
      subst hx
      exact hle hd (List.mem_cons_self hd tl)
  have hlen : ((hd :: tl) ++ [(⟨k, t, v⟩ : CEntry K V)]).length = 101 := by
    simp only [List.length_append, List.length_cons, List.length_nil] at h100 ⊢
    omega
  unfold putCache
  simp only [hany, Bool.false_eq_true, if_false, hlen, hmin]
  rw [if_pos (by omega)]
  rw [List.cons_append, List.eraseP_cons_of_pos (by simp)]
  rfl

/-- C7: a `put` on a cache holding at most 100 entries (times recorded in
non-decreasing insertion order, the new timestamp current) leaves at most
100 entries; and inserting a 101st distinct key evicts exactly one prior
entry — the oldest-inserted head — before the store settles at exactly
100 entries. -/
theorem cache_capacity_invariant {K V : Type} [DecidableEq K]
    (st : List (CEntry K V)) (k : K) (t : ℚ) (v : V)
    (hsorted : st.Pairwise (fun a b => a.time ≤ b.time))
    (hle : ∀ e ∈ st, e.time ≤ t)
    (hcap : st.length ≤ 100) :
    (putCache st k t v).length ≤ 100 ∧
    (st.length = 100 → (∀ e ∈ st, e.key ≠ k) →
      putCache st k t v = st.tail ++ [⟨k, t, v⟩] ∧
      (putCache st k t v).length = 100) := by
  have htail : st.length = 100 → (st.tail ++ [(⟨k, t, v⟩ : CEntry K V)]).length = 100 := by
    intro h100
    simp only [List.length_append, List.length_tail, h100]
    rfl
  constructor
  · by_cases hmem : st.any (fun e => decide (e.key = k)) = true
    · unfold putCache
      simp only [hmem, if_true, List.length_map]
      rw [if_neg (by omega)]
      simpa using hcap
    · simp only [Bool.not_eq_true] at hmem
      by_cases hfull : st.length = 100
      · have hfresh : ∀ e ∈ st, e.key ≠ k := by
          rw [List.any_eq_false] at hmem
          intro e he
          simpa using hmem e he
        rw [putCache_full_fresh st k t v hsorted hle hfull hfresh]
        exact le_of_eq (htail hfull)
      · unfold putCache
        simp only [hmem, Bool.false_eq_true, if_false, List.length_append,
          List.length_cons, List.length_nil]
        rw [if_neg (by omega)]
        simp only [List.length_append, List.length_cons, List.length_nil]
        omega
  · intro h100 hfresh
    refine ⟨putCache_full_fresh st k t v hsorted hle h100 hfresh, ?_⟩
    rw [putCache_full_fresh st k t v hsorted hle h100 hfresh]
    exact htail h100

/-- A full 100-entry cache with keys 0..99 inserted at times 0..99. -/
def cacheFull : List (CEntry ℕ Unit) :=
  (List.range 100).map (fun i => ⟨i, (i : ℚ), ()⟩)

/-- Witness for C7: writing key 100 at time 200 into the full cache. -/
theorem cache_capacity_invariant_witness :
    (cacheFull.Pairwise (fun a b => a.time ≤ b.time) ∧
      (∀ e ∈ cacheFull, e.time ≤ 200) ∧ cacheFull.length ≤ 100) ∧
    ((putCache cacheFull 100 200 ()).length ≤ 100 ∧
      (cacheFull.length = 100 → (∀ e ∈ cacheFull, e.key ≠ 100) →
        putCache cacheFull 100 200 () = cacheFull.tail ++ [⟨100, 200, ()⟩] ∧
        (putCache cacheFull 100 200 ()).length = 100)) :=
  ⟨⟨by
      unfold cacheFull
      rw [List.pairwise_map]
      exact (List.pairwise_lt_range 100).imp
        (fun h => by exact_mod_cast le_of_lt (Nat.cast_lt.mpr h)),
    by
      intro e he
      unfold cacheFull at he
      obtain ⟨i, hi, rfl⟩ := List.mem_map.mp he
      rw [List.mem_range] at hi
      show (i : ℚ) ≤ 200
      exact_mod_cast le_of_lt (lt_of_lt_of_le hi (by norm_num)),
    by simp [cacheFull]⟩,
   cache_capacity_invariant cacheFull 100 200 ()
     (by
       unfold cacheFull
       rw [List.pairwise_map]
       exact (List.pairwise_lt_range 100).imp
         (fun h => by exact_mod_cast le_of_lt (Nat.cast_lt.mpr h)))
     (by
       intro e he
       unfold cacheFull at he
       obtain ⟨i, hi, rfl⟩ := List.mem_map.mp he
       rw [List.mem_range] at hi
       show (i : ℚ) ≤ 200
       exact_mod_cast le_of_lt (lt_of_lt_of_le hi (by norm_num)))
     (by simp [cacheFull])⟩

end Phishy
